/-
Verification of the vimhelp update pipeline (src/update.py and src/gae/update.py)
against its natural-language specification.

The development shallowly embeds the parts of the program the claims are about:
  * the output-sharding codec in `to_html` (src/update.py, lines 399-425; the
    identical code also appears as `_process` in src/gae/update.py, lines 281-309),
  * the cache-publication step `save` of src/gae/update.py (lines 335-358),
    modelled as an explicit trace of storage events,
  * the run coordinator `_do_update` / `_update` of src/update.py, modelled as a
    deterministic function of an environment that fixes every fetch outcome.
Bytes are modelled as `List Nat`; Python ints as `Int`; a fallible step returns
`Except RunAbort _`.
-/
import Mathlib

namespace Vimhelp

/-! ## Output sharding codec (src/update.py, `to_html`, lines 399-425) -/

/-- `PFD_MAX_PART_LEN = 995000` (src/update.py line 31, src/gae/update.py line 27). -/
def PFD_MAX_PART_LEN : Nat := 995000

/-- Embeds `ProcessedFileHead(id=name, ...)` restricted to the sharding-relevant
fields `numparts` and `data0` (the inline part 0). -/
structure ProcessedFileHead where
  id : String
  numparts : Nat
  data0 : List Nat
deriving DecidableEq, Repr

/-- Embeds `ProcessedFilePart(id=partname, data=part)`. -/
structure ProcessedFilePart where
  id : String
  data : List Nat
deriving DecidableEq, Repr

/-- The successive slices `html[i:(i+PFD_MAX_PART_LEN)]` produced by
`for i in xrange(0, datalen, PFD_MAX_PART_LEN)` in src/update.py lines 414-415. -/
def chunkBytes : List Nat → List (List Nat)
  | [] => []
  | x :: xs =>
    (x :: xs).take PFD_MAX_PART_LEN :: chunkBytes ((x :: xs).drop PFD_MAX_PART_LEN)
termination_by l => l.length
decreasing_by
  simp only [List.length_drop, List.length_cons, PFD_MAX_PART_LEN]
  omega

theorem chunkBytes_nil : chunkBytes [] = [] := by
  rw [chunkBytes.eq_def]

theorem chunkBytes_cons (x : Nat) (xs : List Nat) :
    chunkBytes (x :: xs) =
      (x :: xs).take PFD_MAX_PART_LEN ::
        chunkBytes ((x :: xs).drop PFD_MAX_PART_LEN) := by
  rw [chunkBytes.eq_def]

/-- The sharding portion of `to_html` (src/update.py lines 409-425): if the
rendered payload exceeds `PFD_MAX_PART_LEN`, part 0 is inlined in the head as
`data0`, the remaining slices become `ProcessedFilePart` records named
`name:j` for `j = 1..numparts-1`, and `numparts` counts every slice; otherwise
the whole payload is inlined with `numparts = 1`. -/
def to_html_shard (name : String) (html : List Nat) :
    ProcessedFileHead × List ProcessedFilePart :=
  if html.length > PFD_MAX_PART_LEN then
    (⟨name, (chunkBytes html).length, (chunkBytes html).headD []⟩,
      ((chunkBytes html).drop 1).enum.map
        (fun p => ⟨name ++ ":" ++ toString (p.1 + 1), p.2⟩))
  else
    (⟨name, 1, html⟩, [])

/-- The read-side inverse: part 0 from the head, then parts 1..N-1 concatenated
in index order (this is the `join` of spec section 4.4). -/
def join_parts (head : ProcessedFileHead) (parts : List ProcessedFilePart) :
    List Nat :=
  head.data0 ++ (parts.map ProcessedFilePart.data).flatten

/-- Ceiling division, `ceil(a / b)` for natural numbers, as used by the spec's
invariant `totalParts == ceil(len(renderedBytes)/MAX_UNIT_LEN)`. -/
def ceilDiv (a b : Nat) : Nat := (a + b - 1) / b

theorem chunkBytes_flatten : ∀ l : List Nat, (chunkBytes l).flatten = l
  | [] => by simp [chunkBytes_nil]
  | x :: xs => by
    rw [chunkBytes_cons]
    have ih := chunkBytes_flatten ((x :: xs).drop PFD_MAX_PART_LEN)
    simp [ih]
termination_by l => l.length
decreasing_by
  simp only [List.length_drop, List.length_cons, PFD_MAX_PART_LEN]
  omega

theorem chunkBytes_mem_length :
    ∀ l c : List Nat, c ∈ chunkBytes l → c.length ≤ PFD_MAX_PART_LEN
  | [], c => by simp [chunkBytes_nil]
  | x :: xs, c => by
    rw [chunkBytes_cons]
    intro hc
    rcases List.mem_cons.mp hc with h | h
    · subst h
      exact List.length_take_le _ _
    · exact chunkBytes_mem_length _ c h
termination_by l => l.length
decreasing_by
  simp only [List.length_drop, List.length_cons, PFD_MAX_PART_LEN]
  omega

theorem chunkBytes_length :
    ∀ l : List Nat, l ≠ [] →
      (chunkBytes l).length = (l.length - 1) / PFD_MAX_PART_LEN + 1
  | [], h => absurd rfl h
  | x :: xs, _ => by
    rw [chunkBytes_cons]
    by_cases hlen : (x :: xs).length ≤ PFD_MAX_PART_LEN
    · have hdrop : (x :: xs).drop PFD_MAX_PART_LEN = [] :=
        List.drop_eq_nil_of_le hlen
      rw [hdrop, chunkBytes_nil]
      have hx : xs.length + 1 ≤ 995000 := by
        simpa [PFD_MAX_PART_LEN] using hlen
      simp only [List.length_cons, List.length_nil, PFD_MAX_PART_LEN]
      omega
    · push_neg at hlen
      have hne : (x :: xs).drop PFD_MAX_PART_LEN ≠ [] := by
        intro h
        have := congrArg List.length h
        simp only [List.length_drop, List.length_cons, List.length_nil,
          PFD_MAX_PART_LEN] at this hlen
        omega
      have ih := chunkBytes_length ((x :: xs).drop PFD_MAX_PART_LEN) hne
      rw [List.length_cons, ih]
      simp only [List.length_drop, List.length_cons, PFD_MAX_PART_LEN] at *
      omega
termination_by l => l.length
decreasing_by
  simp only [List.length_drop, List.length_cons, PFD_MAX_PART_LEN]
  omega

theorem map_data_enum_mk (name : String) (l : List (List Nat)) :
    (l.enum.map
        (fun p => ProcessedFilePart.mk (name ++ ":" ++ toString (p.1 + 1)) p.2)).map
      ProcessedFilePart.data = l := by
  rw [List.map_map]
  have hcomp : (ProcessedFilePart.data ∘ fun p : Nat × List Nat =>
      ProcessedFilePart.mk (name ++ ":" ++ toString (p.1 + 1)) p.2) = Prod.snd := by
    funext p
    rfl
  rw [hcomp, List.enum_map_snd]

/-- **C3.** For every byte sequence, joining the shard output — the head's
inline part 0 followed by parts 1..N-1 in index order — reproduces the input
byte-identically, and every produced part (the inline part 0 included) is at
most `PFD_MAX_PART_LEN = 995000` bytes. -/
theorem shard_join_roundtrip (name : String) (html : List Nat) :
    join_parts (to_html_shard name html).1 (to_html_shard name html).2 = html ∧
    (to_html_shard name html).1.data0.length ≤ PFD_MAX_PART_LEN ∧
    ∀ p ∈ (to_html_shard name html).2, p.data.length ≤ PFD_MAX_PART_LEN := by
  by_cases h : html.length > PFD_MAX_PART_LEN
  · cases html with
    | nil => simp [PFD_MAX_PART_LEN] at h
    | cons x xs =>
      simp only [to_html_shard, if_pos h, join_parts]
      refine ⟨?_, ?_, ?_⟩
      · rw [map_data_enum_mk]
        have hjoin := chunkBytes_flatten (x :: xs)
        rw [chunkBytes_cons] at *
        simpa using hjoin
      · rw [chunkBytes_cons]
        simp only [List.headD_cons]
        exact List.length_take_le PFD_MAX_PART_LEN (x :: xs)
      · intro p hp
        simp only [List.mem_map] at hp
        obtain ⟨⟨i, c⟩, hmem, hpc⟩ := hp
        have hc : c ∈ (chunkBytes (x :: xs)).drop 1 := by
          have hmm := List.mem_map_of_mem Prod.snd hmem
          rwa [List.enum_map_snd] at hmm
        have hc2 : c ∈ chunkBytes (x :: xs) := List.mem_of_mem_drop hc
        have hlen := chunkBytes_mem_length (x :: xs) c hc2
        rw [← hpc]
        simpa using hlen
  · simp only [to_html_shard, if_neg h, join_parts]
    push_neg at h
    simp [h]

/-- **C4, counterexample.** The claim `totalParts == ceil(len/MAX_UNIT_LEN)`
fails at the concrete input `[]` (an empty rendered payload): the code records
`numparts = 1` while `ceil(0/995000) = 0`. -/
theorem totalparts_ceil_counterexample :
    (to_html_shard "help.txt" []).1.numparts = 1 ∧
    ceilDiv (List.length ([] : List Nat)) PFD_MAX_PART_LEN = 0 ∧
    (1 : Nat) ≠ 0 := by
  refine ⟨rfl, by decide, by decide⟩

/-- **C4, amended.** For every rendered byte sequence, the head records
`numparts = max 1 (ceil(len/MAX_UNIT_LEN))` — i.e. the ceiling for nonempty
input and 1 for the empty payload — and `numparts = 1` iff
`len ≤ MAX_UNIT_LEN`. -/
theorem totalparts_eq (name : String) (html : List Nat) :
    (to_html_shard name html).1.numparts
        = max 1 (ceilDiv html.length PFD_MAX_PART_LEN) ∧
    ((to_html_shard name html).1.numparts = 1 ↔
        html.length ≤ PFD_MAX_PART_LEN) := by
  by_cases h : html.length > PFD_MAX_PART_LEN
  · have hne : html ≠ [] := by
      intro hnil
      rw [hnil] at h
      simp [PFD_MAX_PART_LEN] at h
    have hlen := chunkBytes_length html hne
    simp only [to_html_shard, if_pos h]
    have hmax : max 1 (ceilDiv html.length PFD_MAX_PART_LEN)
        = ceilDiv html.length PFD_MAX_PART_LEN := by
      apply Nat.max_eq_right
      simp only [ceilDiv, PFD_MAX_PART_LEN] at *
      omega
    rw [hmax]
    constructor
    · rw [hlen]
      simp only [ceilDiv, PFD_MAX_PART_LEN] at *
      omega
    · rw [hlen]
      simp only [PFD_MAX_PART_LEN] at *
      omega
  · push_neg at h
    simp only [to_html_shard, if_neg (by omega : ¬ html.length > PFD_MAX_PART_LEN)]
    refine ⟨?_, by simp [h]⟩
    rcases Nat.eq_zero_or_pos html.length with h0 | h0
    · rw [h0]
      decide
    · have : max 1 (ceilDiv html.length PFD_MAX_PART_LEN)
          = ceilDiv html.length PFD_MAX_PART_LEN := by
        apply Nat.max_eq_right
        simp only [ceilDiv, PFD_MAX_PART_LEN] at *
        omega
      rw [this]
      simp only [ceilDiv, PFD_MAX_PART_LEN] at *
      omega

/-! ## Cache publication, src/gae/update.py `_save`/`save` (lines 329-368)

The inner `save` function performs, in program order:
  1. `put_trans([phead] + ppart)` — the durable multi-record transaction;
  2. `memcache.set_multi(cmap)` where `cmap` maps the generation-scoped part
     keys `memcache_part_name(filename, new_genid, i+1)` for `i` over
     `enumerate(ppart)`, plus the bare head key `filename` to the plain
     `phead` (which carries no generation);
     then `memcache.set(filename, MemcacheHead(phead, new_genid))` — the head
     value that references the new generation;
  3. `rinfo.memcache_genid = new_genid; put_trans(raw)`;
  4. `memcache.delete_multi` of the part keys of `old_genid`.
We embed this as an explicit event trace. -/

/-- One storage event of `save`.  `mcSetPart g i` is the volatile write of the
generation-scoped part key `filename:g:i`; `mcSetHeadPlain` is the write of the
bare `phead` under the head key inside `set_multi` (its value references no
generation); `mcSetHead g` is the write of `MemcacheHead(phead, g)` under the
generation-independent head key; `dbPutRaw g` durably stores the sync record
with `memcache_genid = g`; `mcDeletePart g i` deletes an old-generation part
key (the old generation may be `None` on a first publish). -/
inductive SaveEv where
  | dbPutProcessed
  | mcSetPart (gen : Int) (idx : Nat)
  | mcSetHeadPlain
  | mcSetHead (gen : Int)
  | dbPutRaw (genStored : Int)
  | mcDeletePart (gen : Option Int) (idx : Nat)
deriving DecidableEq, Repr

/-- Python's `old_genid or 0` (src/gae/update.py line 341): `None` and `0` are
falsy, any other integer is itself. -/
def pyOrZero : Option Int → Int
  | none => 0
  | some v => if v = 0 then 0 else v

/-- `new_genid = 1 - (old_genid or 0)` (src/gae/update.py line 341). -/
def newGenid (old : Option Int) : Int := 1 - pyOrZero old

/-- The event trace of one execution of `save` (src/gae/update.py lines
335-358) for a document whose sync record holds `old` as `memcache_genid` and
whose sharded output has `nparts` non-inline parts (`len(ppart)`). -/
def saveTrace (old : Option Int) (nparts : Nat) : List SaveEv :=
  SaveEv.dbPutProcessed
    :: ((List.range nparts).map (fun i => SaveEv.mcSetPart (newGenid old) (i + 1))
      ++ SaveEv.mcSetHeadPlain
      :: SaveEv.mcSetHead (newGenid old)
      :: SaveEv.dbPutRaw (newGenid old)
      :: (List.range nparts).map (fun i => SaveEv.mcDeletePart old (i + 1)))

/-- **C1.** In every `save` trace there is a decomposition around the write of
the head value referencing the new generation `g = newGenid old`: every
volatile part write for generation `g` (part indices `1..nparts`) happens
strictly before that head write, no part deletion happens before it, no other
generation-referencing head write precedes it, and every deletion of
old-generation part keys occurs strictly after it.  A reader therefore never
resolves a generation-referencing head whose parts are not yet written. -/
theorem save_parts_before_head_eviction_after (old : Option Int) (nparts : Nat) :
    ∃ pre post,
      saveTrace old nparts = pre ++ SaveEv.mcSetHead (newGenid old) :: post ∧
      (∀ i, i < nparts → SaveEv.mcSetPart (newGenid old) (i + 1) ∈ pre) ∧
      (∀ g k, SaveEv.mcDeletePart g k ∉ pre) ∧
      (∀ g, SaveEv.mcSetHead g ∉ pre) ∧
      (∀ g k, SaveEv.mcDeletePart g k ∈ saveTrace old nparts →
        SaveEv.mcDeletePart g k ∈ post) := by
  refine ⟨SaveEv.dbPutProcessed
      :: ((List.range nparts).map
          (fun i => SaveEv.mcSetPart (newGenid old) (i + 1))
        ++ [SaveEv.mcSetHeadPlain]),
    SaveEv.dbPutRaw (newGenid old)
      :: (List.range nparts).map (fun i => SaveEv.mcDeletePart old (i + 1)),
    ?_, ?_, ?_, ?_, ?_⟩
  · simp [saveTrace]
  · intro i hi
    simp only [List.mem_cons, List.mem_append, List.mem_map, List.mem_range,
      List.mem_singleton]
    exact Or.inr (Or.inl ⟨i, hi, rfl⟩)
  · intro g k
    simp
  · intro g
    simp
  · intro g k hmem
    simp only [saveTrace, List.mem_cons, List.mem_append, List.mem_map,
      List.mem_range] at hmem
    rcases hmem with h | h | h | h | h | h
    · exact absurd h (by simp)
    · obtain ⟨i, _, hi⟩ := h
      exact absurd hi (by simp)
    · exact absurd h (by simp)
    · exact absurd h (by simp)
    · exact absurd h (by simp)
    · obtain ⟨i, hir, hi⟩ := h
      simp only [List.mem_cons, List.mem_map, List.mem_range]
      exact Or.inr ⟨i, hir, hi⟩

/-- **C2.** Each publish computes the new cache generation as
`1 - (previous or 0)` and durably stores it in the sync record
(`rinfo.memcache_genid = new_genid` followed by `put_trans`); for a previous
generation in {0, 1} the value flips to the other element of {0, 1}, so
repeated publishes strictly alternate the stored generation between 0 and 1. -/
theorem generation_alternates (gPrev : Int) (h : gPrev = 0 ∨ gPrev = 1)
    (nparts : Nat) :
    newGenid (some gPrev) = 1 - gPrev ∧
    newGenid (some gPrev) ≠ gPrev ∧
    (newGenid (some gPrev) = 0 ∨ newGenid (some gPrev) = 1) ∧
    newGenid (some (newGenid (some gPrev))) = gPrev ∧
    SaveEv.dbPutRaw (newGenid (some gPrev)) ∈ saveTrace (some gPrev) nparts := by
  rcases h with h | h <;> subst h <;>
    refine ⟨by decide, by decide, by decide, by decide, ?_⟩ <;>
    simp [saveTrace]

/-- Witness for `generation_alternates` at the concrete previous generation 0
with two non-inline parts. -/
theorem generation_alternates_witness :
    newGenid (some 0) = 1 - 0 ∧
    newGenid (some 0) ≠ 0 ∧
    (newGenid (some 0) = 0 ∨ newGenid (some 0) = 1) ∧
    newGenid (some (newGenid (some 0))) = 0 ∧
    SaveEv.dbPutRaw (newGenid (some 0)) ∈ saveTrace (some 0) 2 :=
  generation_alternates 0 (Or.inl rfl) 2

/-- **C10.** On a first publish the sync record has no stored generation
(`memcache_genid` is `None`); `None or 0` is 0, so the new content is written
under generation `1 - 0 = 1`: the volatile head write references generation 1
and the sync record is stored with generation 1. -/
theorem first_publish_generation_one (nparts : Nat) :
    newGenid none = 1 ∧
    pyOrZero none = 0 ∧
    SaveEv.mcSetHead 1 ∈ saveTrace none nparts ∧
    SaveEv.dbPutRaw 1 ∈ saveTrace none nparts := by
  refine ⟨by decide, by decide, ?_, ?_⟩ <;> simp [saveTrace, newGenid, pyOrZero]

/-! ## Run coordinator, src/update.py `_update` (lines 87-114) and `_do_update`
(lines 116-286)

The run is modelled as a deterministic function of an environment `RunEnv` that
fixes the outcome of every conditional probe and document fetch.  A network
fetch either raises `urlfetch.Error` (`Fetch.error`) or resolves to an HTTP
result; datastore reads are total, with `get_by_id` returning an `Option`.  An
uncaught exception aborts the run (`Except.error`), in which case `_update`
never reaches `g.put()`. -/

/-- `TAGS_NAME = 'tags'` (src/update.py line 18). -/
def TAGS_NAME : String := "tags"

/-- `FAQ_NAME = 'vim_faq.txt'` (src/update.py line 19). -/
def FAQ_NAME : String := "vim_faq.txt"

/-- `HELP_NAME = 'help.txt'` (src/update.py line 20). -/
def HELP_NAME : String := "help.txt"

/-- The fields of the singleton `GlobalInfo` entity used by src/update.py:
`master_etag`, `docdir_etag`, `vim_version`; a fresh entity has every field
unset. -/
structure GlobalInfo where
  master_etag : Option String
  docdir_etag : Option String
  vim_version : Option String
deriving DecidableEq, Repr

/-- `GlobalInfo(id='global')` with no stored fields. -/
def GlobalInfo.fresh : GlobalInfo := ⟨none, none, none⟩

/-- The fields of `RawFileInfo` used by src/update.py: the conditional-fetch
`etag` and the stored content digest `sha1`. -/
structure RawFileInfo where
  etag : Option String
  sha1 : String
deriving DecidableEq, Repr

/-- The fields of `RawFileContent`: raw bytes and detected encoding. -/
structure RawFileContent where
  data : List Nat
  encoding : String
deriving DecidableEq, Repr

/-- An HTTP fetch result as used by the document fetches: status code, body,
and the `ETag` response header. -/
structure UrlfetchResult where
  status_code : Nat
  content : List Nat
  etag : Option String
deriving DecidableEq, Repr

/-- One entry of the GitHub `runtime/doc` directory listing as consumed by
src/update.py lines 176-184: `item['name']`, `item['type']`, `item['sha']`. -/
structure DocDirItem where
  name : String
  type : String
  sha : String
deriving DecidableEq, Repr

/-- The directory-listing probe result: status, parsed entries, `ETag`. -/
structure DocDirResult where
  status_code : Nat
  items : List DocDirItem
  etag : Option String
deriving DecidableEq, Repr

/-- The master-branch (version) probe result: status, the commit message
`master.json['commit']['commit']['message']`, and the `ETag` header. -/
structure MasterResult where
  status_code : Nat
  message : String
  etag : Option String
deriving DecidableEq, Repr

/-- Outcome of one asynchronous urlfetch: `error` models a raised
`urlfetch.Error`, `ok` a resolved HTTP result of any status. -/
inductive Fetch (α : Type) where
  | error : Fetch α
  | ok (r : α) : Fetch α
deriving DecidableEq, Repr

/-- The environment of one run: the two probe outcomes, the outcome of the
document fetch for each name, and the `RawFileContent` datastore contents. -/
structure RunEnv where
  docdir : Fetch DocDirResult
  master : Fetch MasterResult
  fetch : String → Fetch UrlfetchResult
  rfc : String → Option RawFileContent

/-- Why a run aborts with an uncaught exception: an `urlfetch.Error` surfacing
outside the collection loop's `try`, a datastore record expected to exist but
absent (attribute access on `None`), the `assert` at src/update.py line 179, or
the cleanup crash at line 284 — after a caught `urlfetch.Error`, the statement
`del processor_futures_by_name[processor.name()]` references `processor`, which
is unbound on a first-iteration failure (`UnboundLocalError`) and otherwise
stale, naming a processor whose entry was already deleted (`KeyError`). -/
inductive RunAbort where
  | urlfetchError
  | dbMissing
  | assertionFailed
  | nameError
deriving DecidableEq, Repr

/-- The observable outcome of a completed `_do_update`: the (possibly updated)
global entity, the `g_changed` flag it returns, the `is_new_vim_version` flag,
the names whose HTTP fetch was dispatched (in dispatch order, the FAQ first),
the names processed from fetched content (HTTP 200), and the names processed
from the datastore via `ProcessorDB`. -/
structure RunOutcome where
  g : GlobalInfo
  g_changed : Bool
  is_new_vim_version : Bool
  dispatched : List String
  processedHTTP : List String
  processedDB : List String
deriving DecidableEq, Repr

/-- `\w` of Python 2 `re` on byte strings: `[A-Za-z0-9_]`. -/
def isWordChar (c : Char) : Bool := c.isAlpha || c.isDigit || c = '_'

/-- `DOC_ITEM_RE = re.compile(r'(?:[-\w]+\.txt|tags)$')` applied with
`re.match` (src/update.py lines 22, 178): the name is either a nonempty
`[-\w]+` stem followed by `.txt`, or exactly `tags`. -/
def docItemMatch (name : String) : Bool :=
  (decide (5 ≤ name.data.length)
    && (name.data.drop (name.data.length - 4) == ['.', 't', 'x', 't'])
    && (name.data.take (name.data.length - 4)).all
        (fun c => isWordChar c || c = '-'))
  || name == "tags"

/-- `\s` of Python 2 `re`: space, tab, newline, carriage return, vertical tab,
form feed. -/
def isPySpace (c : Char) : Bool :=
  c = ' ' || c = '\t' || c = '\n' || c = '\r' || c = '\x0B' || c = '\x0C'

/-- The `\s+(\d[^\n]+)` suffix of `COMMIT_MSG_RE`: at least one whitespace
character, then the captured group — a digit followed by at least one further
non-newline character, extending greedily to the end of the line. -/
def commitMsgAfter (rest : List Char) : Option (List Char) :=
  if (rest.takeWhile isPySpace).isEmpty then none
  else
    match rest.dropWhile isPySpace with
    | d :: tail =>
      if d.isDigit then
        if (tail.takeWhile (fun c => c ≠ '\n')).isEmpty then none
        else some (d :: tail.takeWhile (fun c => c ≠ '\n'))
      else none
    | [] => none

/-- `COMMIT_MSG_RE = re.compile(r'[Pp]atch\s+(\d[^\n]+)')` applied with
`re.match` (src/update.py lines 23, 195), returning group 1. -/
def commitMsgMatchL : List Char → Option (List Char)
  | 'P' :: 'a' :: 't' :: 'c' :: 'h' :: rest => commitMsgAfter rest
  | 'p' :: 'a' :: 't' :: 'c' :: 'h' :: rest => commitMsgAfter rest
  | _ => none

/-- `COMMIT_MSG_RE.match(message)` on a string, returning the extracted
version label if any. -/
def commitMsgMatch (msg : String) : Option String :=
  (commitMsgMatchL msg.data).map (fun l => ⟨l⟩)

/-- The loop over the `runtime/doc` listing (src/update.py lines 176-184):
for each entry of type `file` whose name matches `DOC_ITEM_RE`, assert that it
is not already queued (the FAQ is queued beforehand), skip it when the stored
`RawFileInfo` digest equals the listing digest, and otherwise queue its fetch.
Returns the queued names in order. -/
def queueNames (rfi_map : String → Option RawFileInfo) (items : List DocDirItem) :
    Except RunAbort (List String) :=
  items.foldl
    (fun acc item =>
      match acc with
      | .error e => .error e
      | .ok queued =>
        if item.type = "file" ∧ docItemMatch item.name then
          if item.name ∈ FAQ_NAME :: queued then .error .assertionFailed
          else
            match rfi_map item.name with
            | some rfi =>
              if rfi.sha1 = item.sha then .ok queued
              else .ok (queued ++ [item.name])
            | none => .ok (queued ++ [item.name])
        else .ok queued)
    (.ok [])

/-- Handling of the directory-listing probe (src/update.py lines 168-184):
`304` leaves the global entity untouched and queues nothing; `200` stores the
new listing `ETag`, marks `g_changed`, and queues the modified entries; any
other status silently leaves everything untouched (there is no `else` branch).
A raised `urlfetch.Error` surfaces at `docdir_future.get_result()` and aborts
the run. -/
def processDocdir (g : GlobalInfo) (rfi_map : String → Option RawFileInfo) :
    Fetch DocDirResult → Except RunAbort (GlobalInfo × Bool × List String)
  | .error => .error .urlfetchError
  | .ok d =>
    if d.status_code = 304 then .ok (g, false, [])
    else if d.status_code = 200 then
      match queueNames rfi_map d.items with
      | .error e => .error e
      | .ok q => .ok ({ g with docdir_etag := d.etag }, true, q)
    else .ok (g, false, [])

/-- Handling of the master-branch probe (src/update.py lines 189-218),
returning the updated global entity, `is_new_vim_version`, and `g_changed`.
On `200` the commit message is matched against `COMMIT_MSG_RE`; a new label
sets `vim_version` and `is_new_vim_version`; in every `200` case the
`master_etag` is stored and `g_changed` set.  Every other status — the
not-modified case as well as the logged failure case — leaves the entity
untouched.  A raised `urlfetch.Error` surfaces at `master_future.get_result()`
and aborts the run. -/
def processMaster (g : GlobalInfo) (gch : Bool) :
    Fetch MasterResult → Except RunAbort (GlobalInfo × Bool × Bool)
  | .error => .error .urlfetchError
  | .ok m =>
    if m.status_code = 200 then
      match commitMsgMatch m.message with
      | some v =>
        if some v ≠ g.vim_version then
          .ok ({ g with vim_version := some v, master_etag := m.etag }, true, true)
        else .ok ({ g with master_etag := m.etag }, false, true)
      | none => .ok ({ g with master_etag := m.etag }, false, true)
    else .ok (g, false, gch)

/-- `get_content_async` (src/update.py lines 229-243) together with
`ProcessorHTTP.raw_content_async` (lines 305-318): a dispatched name resolves
from its fetch — `200` yields the body, `304` loads `RawFileContent` from the
datastore (attribute access on a missing record aborts), any other status
leaves the content `None`; an undispatched name loads `RawFileContent`
directly.  A fetch that raised surfaces here and aborts the run. -/
def get_content (dispatched : List String) (env : RunEnv) (name : String) :
    Except RunAbort (Option (List Nat)) :=
  if name ∈ dispatched then
    match env.fetch name with
    | .error => .error .urlfetchError
    | .ok r =>
      if r.status_code = 200 then .ok (some r.content)
      else if r.status_code = 304 then
        match env.rfc name with
        | some c => .ok (some c.data)
        | none => .error .dbMissing
      else .ok none
  else
    match env.rfc name with
    | some c => .ok (some c.data)
    | none => .error .dbMissing

/-- The collection loop (src/update.py lines 267-284) restricted to the HTTP
processors.  A `200` result is processed and saved
(`ProcessorHTTP.process_async`, lines 320-329); any other status is logged and
skipped.  A fetch that raised `urlfetch.Error` is caught at line 271 — the
handler logs and assigns `g_changed = False` — but the loop then executes
`del processor_futures_by_name[processor.name()]` (line 284) with `processor`
unbound or stale, raising `UnboundLocalError`/`KeyError`: the loop never
survives a raised fetch, and the run aborts before returning `g_changed`. -/
def runLoop (env : RunEnv) : List String → Except RunAbort (List String)
  | [] => .ok []
  | n :: rest =>
    match env.fetch n with
    | .error => .error .nameError
    | .ok r =>
      if r.status_code = 200 then
        match runLoop env rest with
        | .error e => .error e
        | .ok l => .ok (n :: l)
      else runLoop env rest

/-- The `ProcessorDB` path (src/update.py lines 338-360): each name is loaded
from `RawFileContent` and processed; a missing record aborts the run
(`rfc.data` on `None`). -/
def processDB (env : RunEnv) : List String → Except RunAbort (List String)
  | [] => .ok []
  | n :: rest =>
    match env.rfc n with
    | none => .error .dbMissing
    | some _ =>
      match processDB env rest with
      | .error e => .error e
      | .ok l => .ok (n :: l)

/-- The tail of `_do_update` past the early bail-out (src/update.py lines
229-286): resolve the tags and FAQ content for the converter, implicitly add
`help.txt` as a `ProcessorDB` when a new version was found and its fetch is
not already dispatched (lines 255-257), then run the collection loop; a raised
fetch error surfacing in the loop crashes the cleanup at line 284 and aborts
the run, so a completed run returns `g_changed` unchanged. -/
def mainPath (g : GlobalInfo) (gch is_new : Bool) (dispatched : List String)
    (env : RunEnv) : Except RunAbort RunOutcome :=
  match get_content dispatched env TAGS_NAME with
  | .error e => .error e
  | .ok _ =>
    match get_content dispatched env FAQ_NAME with
    | .error e => .error e
    | .ok _ =>
      match processDB env
          (if is_new = true ∧ HELP_NAME ∉ dispatched then [HELP_NAME] else []) with
      | .error e => .error e
      | .ok processedD =>
        match runLoop env dispatched with
        | .error e => .error e
        | .ok processedH =>
          .ok ⟨g, gch, is_new, dispatched, processedH, processedD⟩

/-- `_do_update` (src/update.py lines 116-286): queue the FAQ fetch, handle
the directory-listing probe (queueing modified entries), handle the version
probe, bail out early returning `g_changed` when there is no new version, only
the FAQ is being fetched, and its fetch resolved not-modified (lines 224-227;
a raised FAQ fetch surfaces at `get_result()` there and aborts), and otherwise
continue with `mainPath`. -/
def do_update (g : GlobalInfo) (rfi_map : String → Option RawFileInfo)
    (env : RunEnv) : Except RunAbort RunOutcome :=
  match processDocdir g rfi_map env.docdir with
  | .error e => .error e
  | .ok (g1, gch1, queued) =>
    match processMaster g1 gch1 env.master with
    | .error e => .error e
    | .ok (g2, is_new, gch2) =>
      if is_new = false ∧ (FAQ_NAME :: queued).length = 1 then
        match env.fetch FAQ_NAME with
        | .error => .error .urlfetchError
        | .ok r =>
          if r.status_code = 304 then
            .ok ⟨g2, gch2, is_new, FAQ_NAME :: queued, [], []⟩
          else mainPath g2 gch2 is_new (FAQ_NAME :: queued) env
      else mainPath g2 gch2 is_new (FAQ_NAME :: queued) env

/-- The durable store visible to `_update`: the global singleton, the
`RawFileInfo` and `RawFileContent` tables, and the published rendered output
(`ProcessedFileHead` and `ProcessedFilePart` tables). -/
structure Store where
  global : Option GlobalInfo
  rfi : List (String × RawFileInfo)
  rfc : List (String × RawFileContent)
  heads : List (String × ProcessedFileHead)
  parts : List (String × ProcessedFilePart)
deriving Repr

/-- `wipe_db_async` (src/update.py lines 367-370): query every key of the
model, then delete exactly those keys. -/
def wipe_db {α : Type} (tbl : List (String × α)) : List (String × α) :=
  tbl.filter (fun kv => kv.1 ∉ tbl.map Prod.fst)

/-- The force branch of `_update` (src/update.py lines 93-99): wipe the
`RawFileContent` and `RawFileInfo` tables and delete the `GlobalInfo` record. -/
def forceWipe (s : Store) : Store :=
  { s with rfc := wipe_db s.rfc, rfi := wipe_db s.rfi, global := none }

/-- Association-list lookup standing for `get_by_id` over a table. -/
def lookupRec {α : Type} (l : List (String × α)) (k : String) : Option α :=
  (l.find? (fun kv => kv.1 == k)).map Prod.snd

/-- `_update` (src/update.py lines 87-114): under `force`, wipe and start from
a fresh global entity with an empty `RawFileInfo` map; run `_do_update`; put
the global entity iff it returned `g_changed`.  An abort propagates and
`g.put()` is never reached. -/
def update_model (force : Bool) (s : Store) (env : RunEnv) :
    Except RunAbort (Store × RunOutcome) :=
  match do_update (if force then GlobalInfo.fresh else s.global.getD GlobalInfo.fresh)
      (fun n => if force then none else lookupRec s.rfi n) env with
  | .error e => .error e
  | .ok out =>
    if out.g_changed then
      .ok ({ (if force then forceWipe s else s) with global := some out.g }, out)
    else .ok (if force then forceWipe s else s, out)

/-! ## Structural lemmas about the run coordinator -/

theorem runLoop_nil (env : RunEnv) : runLoop env [] = .ok [] := rfl

theorem runLoop_cons_skip (env : RunEnv) (n : String) (rest : List String)
    (r : UrlfetchResult) (hf : env.fetch n = .ok r)
    (h200 : r.status_code ≠ 200) :
    runLoop env (n :: rest) = runLoop env rest := by
  simp only [runLoop, hf]
  rw [if_neg h200]

theorem runLoop_cons_200 (env : RunEnv) (n : String) (rest : List String)
    (r : UrlfetchResult) (l : List String) (hf : env.fetch n = .ok r)
    (h200 : r.status_code = 200) (h : runLoop env rest = .ok l) :
    runLoop env (n :: rest) = .ok (n :: l) := by
  simp only [runLoop, hf, h]
  rw [if_pos h200]

theorem runLoop_ok_no_error (env : RunEnv) :
    ∀ (names : List String) (l : List String), runLoop env names = .ok l →
      ∀ n ∈ names, env.fetch n ≠ .error := by
  intro names
  induction names with
  | nil =>
    intro l _ n hn
    simp at hn
  | cons m rest ih =>
    intro l h n hn he
    cases hf : env.fetch m with
    | error =>
      unfold runLoop at h
      rw [hf] at h
      exact absurd h (by simp)
    | ok r =>
      rcases List.mem_cons.mp hn with rfl | hmem
      · rw [hf] at he
        exact absurd he (by simp)
      · unfold runLoop at h
        rw [hf] at h
        dsimp only at h
        by_cases hr : r.status_code = 200
        · rw [if_pos hr] at h
          cases h2 : runLoop env rest with
          | error e =>
            rw [h2] at h
            exact absurd h (by simp)
          | ok l2 => exact ih l2 h2 n hmem he
        · rw [if_neg hr] at h
          exact ih l h n hmem he

theorem processDB_nil (env : RunEnv) : processDB env [] = .ok [] := rfl

theorem processDB_one (env : RunEnv) (n : String) (c : RawFileContent)
    (hc : env.rfc n = some c) : processDB env [n] = .ok [n] := by
  simp only [processDB, hc]

theorem get_content_not_dispatched (dispatched : List String) (env : RunEnv)
    (name : String) (c : RawFileContent) (hnd : name ∉ dispatched)
    (hc : env.rfc name = some c) :
    get_content dispatched env name = .ok (some c.data) := by
  simp only [get_content]
  rw [if_neg hnd, hc]

theorem get_content_304 (dispatched : List String) (env : RunEnv)
    (name : String) (r : UrlfetchResult) (c : RawFileContent)
    (hin : name ∈ dispatched) (hf : env.fetch name = .ok r)
    (hr : r.status_code = 304) (hc : env.rfc name = some c) :
    get_content dispatched env name = .ok (some c.data) := by
  simp only [get_content, hf]
  rw [if_pos hin, if_neg (by omega : ¬ r.status_code = 200), if_pos hr, hc]

theorem get_content_200 (dispatched : List String) (env : RunEnv)
    (name : String) (r : UrlfetchResult) (hin : name ∈ dispatched)
    (hf : env.fetch name = .ok r) (h200 : r.status_code = 200) :
    get_content dispatched env name = .ok (some r.content) := by
  simp only [get_content, hf]
  rw [if_pos hin, if_pos h200]

theorem processDocdir_not_fresh (g : GlobalInfo)
    (rfi_map : String → Option RawFileInfo) (d : DocDirResult)
    (hd304 : d.status_code ≠ 304) (hd200 : d.status_code ≠ 200) :
    processDocdir g rfi_map (.ok d) = .ok (g, false, []) := by
  simp only [processDocdir]
  rw [if_neg hd304, if_neg hd200]

theorem processDocdir_304 (g : GlobalInfo)
    (rfi_map : String → Option RawFileInfo) (d : DocDirResult)
    (hd304 : d.status_code = 304) :
    processDocdir g rfi_map (.ok d) = .ok (g, false, []) := by
  simp only [processDocdir]
  rw [if_pos hd304]

theorem processDocdir_200 (g : GlobalInfo)
    (rfi_map : String → Option RawFileInfo) (d : DocDirResult)
    (q : List String) (hd200 : d.status_code = 200)
    (hq : queueNames rfi_map d.items = .ok q) :
    processDocdir g rfi_map (.ok d) =
      .ok ({ g with docdir_etag := d.etag }, true, q) := by
  simp only [processDocdir, hq]
  rw [if_neg (by omega : ¬ d.status_code = 304), if_pos hd200]

theorem processMaster_not_fresh (g : GlobalInfo) (gch : Bool)
    (m : MasterResult) (h200 : m.status_code ≠ 200) :
    processMaster g gch (.ok m) = .ok (g, false, gch) := by
  simp only [processMaster]
  rw [if_neg h200]

theorem processMaster_fresh_new (g : GlobalInfo) (gch : Bool)
    (m : MasterResult) (v : String) (h200 : m.status_code = 200)
    (hv : commitMsgMatch m.message = some v)
    (hne : g.vim_version ≠ some v) :
    processMaster g gch (.ok m) =
      .ok ({ g with vim_version := some v, master_etag := m.etag },
        true, true) := by
  simp only [processMaster, hv]
  rw [if_pos h200, if_pos (fun hh => hne hh.symm)]

theorem processMaster_fresh_same (g : GlobalInfo) (gch : Bool)
    (m : MasterResult) (v : String) (h200 : m.status_code = 200)
    (hv : commitMsgMatch m.message = some v)
    (heq : g.vim_version = some v) :
    processMaster g gch (.ok m) =
      .ok ({ g with master_etag := m.etag }, false, true) := by
  simp only [processMaster, hv]
  rw [if_pos h200, if_neg (fun hcond => hcond heq.symm)]

theorem queueNames_single_new (rfi_map : String → Option RawFileInfo)
    (item : DocDirItem) (htype : item.type = "file")
    (hmatch : docItemMatch item.name = true) (hnf : item.name ≠ FAQ_NAME)
    (hrfi : rfi_map item.name = none) :
    queueNames rfi_map [item] = .ok [item.name] := by
  simp only [queueNames, List.foldl_cons, List.foldl_nil, hrfi]
  rw [if_pos ⟨htype, hmatch⟩,
    if_neg (fun hmem => hnf (by simpa using hmem))]
  rfl

theorem do_update_eq (g : GlobalInfo) (rfi_map : String → Option RawFileInfo)
    (env : RunEnv) (g1 : GlobalInfo) (gch1 : Bool) (queued : List String)
    (g2 : GlobalInfo) (is_new gch2 : Bool)
    (h1 : processDocdir g rfi_map env.docdir = .ok (g1, gch1, queued))
    (h2 : processMaster g1 gch1 env.master = .ok (g2, is_new, gch2)) :
    do_update g rfi_map env =
      if is_new = false ∧ (FAQ_NAME :: queued).length = 1 then
        match env.fetch FAQ_NAME with
        | .error => .error .urlfetchError
        | .ok r =>
          if r.status_code = 304 then
            .ok ⟨g2, gch2, is_new, FAQ_NAME :: queued, [], []⟩
          else mainPath g2 gch2 is_new (FAQ_NAME :: queued) env
      else mainPath g2 gch2 is_new (FAQ_NAME :: queued) env := by
  unfold do_update
  rw [h1]
  dsimp only
  rw [h2]

theorem mainPath_eq (g : GlobalInfo) (gch is_new : Bool)
    (dispatched : List String) (env : RunEnv) (tc fc : Option (List Nat))
    (pd ph : List String)
    (h1 : get_content dispatched env TAGS_NAME = .ok tc)
    (h2 : get_content dispatched env FAQ_NAME = .ok fc)
    (h3 : processDB env
      (if is_new = true ∧ HELP_NAME ∉ dispatched then [HELP_NAME] else [])
      = .ok pd)
    (h4 : runLoop env dispatched = .ok ph) :
    mainPath g gch is_new dispatched env =
      .ok ⟨g, gch, is_new, dispatched, ph, pd⟩ := by
  unfold mainPath
  rw [h1]
  dsimp only
  rw [h2]
  dsimp only
  rw [h3]
  dsimp only
  rw [h4]

theorem mainPath_ok_shape (g : GlobalInfo) (gch is_new : Bool)
    (dispatched : List String) (env : RunEnv) (out : RunOutcome)
    (h : mainPath g gch is_new dispatched env = .ok out) :
    out = ⟨g, gch, is_new, dispatched, out.processedHTTP, out.processedDB⟩ ∧
    runLoop env dispatched = .ok out.processedHTTP ∧
    processDB env
        (if is_new = true ∧ HELP_NAME ∉ dispatched then [HELP_NAME] else [])
      = .ok out.processedDB := by
  unfold mainPath at h
  cases h1 : get_content dispatched env TAGS_NAME with
  | error e =>
    rw [h1] at h
    exact absurd h (by simp)
  | ok c1 =>
    rw [h1] at h
    cases h2 : get_content dispatched env FAQ_NAME with
    | error e =>
      rw [h2] at h
      exact absurd h (by simp)
    | ok c2 =>
      rw [h2] at h
      cases h3 : processDB env
          (if is_new = true ∧ HELP_NAME ∉ dispatched then [HELP_NAME] else []) with
      | error e =>
        rw [h3] at h
        exact absurd h (by simp)
      | ok pd =>
        rw [h3] at h
        cases h4 : runLoop env dispatched with
        | error e =>
          rw [h4] at h
          exact absurd h (by simp)
        | ok ph =>
          rw [h4] at h
          injection h with h5
          subst h5
          exact ⟨rfl, rfl, rfl⟩

theorem do_update_ok_cases (g : GlobalInfo)
    (rfi_map : String → Option RawFileInfo) (env : RunEnv) (out : RunOutcome)
    (h : do_update g rfi_map env = .ok out) :
    ∃ g1 gch1 queued g2 is_new gch2,
      processDocdir g rfi_map env.docdir = .ok (g1, gch1, queued) ∧
      processMaster g1 gch1 env.master = .ok (g2, is_new, gch2) ∧
      ((is_new = false ∧ queued = [] ∧
          (∃ r, env.fetch FAQ_NAME = .ok r ∧ r.status_code = 304) ∧
          out = ⟨g2, gch2, is_new, [FAQ_NAME], [], []⟩) ∨
        mainPath g2 gch2 is_new (FAQ_NAME :: queued) env = .ok out) := by
  unfold do_update at h
  cases h1 : processDocdir g rfi_map env.docdir with
  | error e =>
    rw [h1] at h
    exact absurd h (by simp)
  | ok t1 =>
    obtain ⟨g1, gch1, queued⟩ := t1
    rw [h1] at h
    dsimp only at h
    cases h2 : processMaster g1 gch1 env.master with
    | error e =>
      rw [h2] at h
      exact absurd h (by simp)
    | ok t2 =>
      obtain ⟨g2, is_new, gch2⟩ := t2
      rw [h2] at h
      dsimp only at h
      refine ⟨g1, gch1, queued, g2, is_new, gch2, rfl, h2, ?_⟩
      by_cases hb : is_new = false ∧ (FAQ_NAME :: queued).length = 1
      · rw [if_pos hb] at h
        have hq : queued = [] := by
          have h5 := hb.2
          simp only [List.length_cons] at h5
          exact List.length_eq_zero.mp (by omega)
        subst hq
        cases h3 : env.fetch FAQ_NAME with
        | error =>
          rw [h3] at h
          exact absurd h (by simp)
        | ok r =>
          rw [h3] at h
          dsimp only at h
          by_cases hr : r.status_code = 304
          · rw [if_pos hr] at h
            injection h with h4
            subst h4
            exact Or.inl ⟨hb.1, rfl, ⟨r, rfl, hr⟩, rfl⟩
          · rw [if_neg hr] at h
            exact Or.inr h
      · rw [if_neg hb] at h
        exact Or.inr h

theorem do_update_ok_no_fetch_error (g : GlobalInfo)
    (rfi_map : String → Option RawFileInfo) (env : RunEnv) (out : RunOutcome)
    (n : String) (h : do_update g rfi_map env = .ok out)
    (hn : n ∈ out.dispatched) : env.fetch n ≠ .error := by
  intro he
  obtain ⟨g1, gch1, queued, g2, is_new, gch2, _, _, hcase⟩ :=
    do_update_ok_cases g rfi_map env out h
  rcases hcase with ⟨_, _, ⟨r, hfaq, _⟩, hout⟩ | hmain
  · rw [hout] at hn
    simp only at hn
    have : n = FAQ_NAME := by simpa using hn
    rw [this, hfaq] at he
    exact absurd he (by simp)
  · obtain ⟨hshape, hloop, _⟩ := mainPath_ok_shape _ _ _ _ _ _ hmain
    have hdisp : out.dispatched = FAQ_NAME :: queued := by rw [hshape]
    rw [hdisp] at hn
    exact runLoop_ok_no_error env (FAQ_NAME :: queued) out.processedHTTP
      hloop n hn he

/-! ## Theorems for the run coordinator claims -/

/-- **C5, counterexample** data: a run whose directory listing (status 200)
queues `usr_01.txt`, whose version probe reports not-modified, whose FAQ fetch
succeeds, and whose `usr_01.txt` fetch resolves with HTTP 500 — a non-OK,
non-not-modified result. -/
def g5 : GlobalInfo := ⟨some "me-old", some "de-old", some "8.0"⟩

def s5 : Store :=
  ⟨some g5, [(FAQ_NAME, ⟨some "fe", "fsha"⟩)], [(TAGS_NAME, ⟨[1], "UTF-8"⟩)],
    [("a.txt", ⟨"a.txt", 1, [9]⟩)], [("a.txt:1", ⟨"a.txt:1", [8]⟩)]⟩

def env5cex : RunEnv :=
  ⟨.ok ⟨200, [⟨"usr_01.txt", "file", "sha-u"⟩], some "de-new"⟩,
    .ok ⟨304, "", some "me-old"⟩,
    (fun n => if n = FAQ_NAME then .ok ⟨200, [2], some "fe2"⟩
      else if n = "usr_01.txt" then .ok ⟨500, [], none⟩
      else .error),
    (fun n => if n = TAGS_NAME then some ⟨[1], "UTF-8"⟩ else none)⟩

/-- **C5, counterexample.** A tracked document's fetch fails with a non-OK,
non-not-modified status (HTTP 500 for `usr_01.txt`), yet the run completes
with `g_changed = true` and the global checkpoint *is* persisted (the stored
`GlobalInfo` is updated with the new listing validator): an error-status fetch
result does not suppress the checkpoint. -/
theorem fetch_error_status_checkpoint_counterexample :
    env5cex.fetch "usr_01.txt" = .ok ⟨500, [], none⟩ ∧
    update_model false s5 env5cex =
      .ok ({ s5 with global := some ⟨some "me-old", some "de-new", some "8.0"⟩ },
        ⟨⟨some "me-old", some "de-new", some "8.0"⟩, true, false,
          [FAQ_NAME, "usr_01.txt"], [FAQ_NAME], []⟩) ∧
    (some (⟨some "me-old", some "de-new", some "8.0"⟩ : GlobalInfo) ≠ s5.global) :=
  ⟨rfl, rfl, by decide⟩

/-- **C5, amended.** In every completed run, no dispatched document fetch
failed at the transport layer: when a dispatched fetch raises `urlfetch.Error`,
the run aborts before reaching `g.put()` — the error either surfaces uncaught
(at the bail-out `get_result()` or the tags/FAQ content resolution) or is
caught in the collection loop, whose handler clears `g_changed` but whose
cleanup at line 284 then crashes on a stale or unbound `processor` — so the
global checkpoint is never persisted, even though documents collected before
the failure were already processed and durably published.  A fetch resolving
with a non-OK, non-not-modified HTTP status, by contrast, leaves the document
unprocessed but does not prevent checkpoint persistence. -/
theorem fetch_exception_blocks_checkpoint (force : Bool) (s : Store)
    (env : RunEnv) (res : Store × RunOutcome) (n : String)
    (h : update_model force s env = .ok res)
    (hn : n ∈ res.2.dispatched) :
    env.fetch n ≠ .error := by
  unfold update_model at h
  cases hd : do_update
      (if force then GlobalInfo.fresh else s.global.getD GlobalInfo.fresh)
      (fun n => if force then none else lookupRec s.rfi n) env with
  | error e =>
    rw [hd] at h
    exact absurd h (by simp)
  | ok out =>
    rw [hd] at h
    dsimp only at h
    have hout : res.2 = out := by
      by_cases hgc : out.g_changed
      · rw [if_pos hgc] at h
        injection h with h2
        rw [← h2]
      · rw [if_neg hgc] at h
        injection h with h2
        rw [← h2]
    exact do_update_ok_no_fetch_error _ _ _ _ n hd (by rwa [hout] at hn)

/-- Witness for `fetch_exception_blocks_checkpoint`: the completed HTTP-500
run of the counterexample; its dispatched `usr_01.txt` fetch was not a raised
transport error. -/
theorem fetch_exception_blocks_checkpoint_witness :
    env5cex.fetch "usr_01.txt" ≠ Fetch.error :=
  fetch_exception_blocks_checkpoint false s5 env5cex
    ({ s5 with global := some ⟨some "me-old", some "de-new", some "8.0"⟩ },
      ⟨⟨some "me-old", some "de-new", some "8.0"⟩, true, false,
        [FAQ_NAME, "usr_01.txt"], [FAQ_NAME], []⟩)
    "usr_01.txt" rfl (by decide)

/-- **C6, counterexample** data: the directory-listing probe reports
not-modified, the version probe reports not-modified, and the FAQ fetch — which
is dispatched unconditionally before the listing is even examined
(src/update.py line 163) — returns fresh content. -/
def g6 : GlobalInfo := ⟨some "me", some "de", some "9.0"⟩

def env6cex : RunEnv :=
  ⟨.ok ⟨304, [], none⟩,
    .ok ⟨304, "", none⟩,
    (fun n => if n = FAQ_NAME then .ok ⟨200, [7], some "fe2"⟩ else .error),
    (fun n => if n = TAGS_NAME then some ⟨[1], "UTF-8"⟩ else none)⟩

/-- **C6, counterexample.** With the directory-listing probe returning
not-modified (and no version change), a document fetch *is* dispatched — the
unconditional FAQ fetch — and, its result being fresh (HTTP 200), the FAQ *is*
processed this run, contradicting "no document fetches are dispatched and no
documents are processed". -/
theorem faq_always_dispatched_counterexample :
    env6cex.docdir = .ok ⟨304, [], none⟩ ∧
    do_update g6 (fun _ => none) env6cex =
      .ok ⟨g6, false, false, [FAQ_NAME], [FAQ_NAME], []⟩ ∧
    ([FAQ_NAME] : List String) ≠ [] :=
  ⟨rfl, rfl, by decide⟩

/-- **C6, amended.** If the directory-listing probe returns not-modified, no
listing-derived fetch is dispatched — the unconditionally dispatched FAQ
conditional fetch remains the only one.  If additionally the version probe did
not return fresh content (status not 200: not-modified or an error) and the
FAQ fetch resolves not-modified, no document is processed and the run
completes with `g_changed = false` and the global entity untouched.  If the
version probe instead returns fresh content whose extracted label equals the
stored version — no version change detected — the run still dispatches and
processes nothing beyond the FAQ probe, but completes with `g_changed = true`
because the master validator is refreshed (src/update.py lines 212-213). -/
theorem docdir_not_modified_run (g : GlobalInfo)
    (rfi_map : String → Option RawFileInfo) (env : RunEnv) (d : DocDirResult)
    (m : MasterResult) (r : UrlfetchResult)
    (hd : env.docdir = .ok d) (hd304 : d.status_code = 304)
    (hm : env.master = .ok m)
    (hf : env.fetch FAQ_NAME = .ok r) (hr : r.status_code = 304) :
    (m.status_code ≠ 200 →
      do_update g rfi_map env = .ok ⟨g, false, false, [FAQ_NAME], [], []⟩) ∧
    (∀ v : String, m.status_code = 200 → commitMsgMatch m.message = some v →
      g.vim_version = some v →
      do_update g rfi_map env =
        .ok ⟨{ g with master_etag := m.etag }, true, false,
          [FAQ_NAME], [], []⟩) := by
  have hdoc : processDocdir g rfi_map env.docdir = .ok (g, false, []) := by
    rw [hd]
    exact processDocdir_304 g rfi_map d hd304
  constructor
  · intro hm200
    have hmast : processMaster g false env.master = .ok (g, false, false) := by
      rw [hm]
      exact processMaster_not_fresh g false m hm200
    rw [do_update_eq g rfi_map env g false [] g false false hdoc hmast]
    rw [if_pos ⟨rfl, rfl⟩, hf]
    dsimp only
    rw [if_pos hr]
  · intro v hm200 hv heq
    have hmast : processMaster g false env.master =
        .ok ({ g with master_etag := m.etag }, false, true) := by
      rw [hm]
      exact processMaster_fresh_same g false m v hm200 hv heq
    rw [do_update_eq g rfi_map env g false [] _ false true hdoc hmast]
    rw [if_pos ⟨rfl, rfl⟩, hf]
    dsimp only
    rw [if_pos hr]

/-- Witness for `docdir_not_modified_run`, exercising both conjuncts: a
not-modified version probe (run ends with `g_changed = false`), and a fresh
version probe whose label equals the stored version (run ends with
`g_changed = true`, master validator refreshed, nothing processed). -/
theorem docdir_not_modified_run_witness :
    do_update g6 (fun _ => none)
        ⟨.ok ⟨304, [], none⟩, .ok ⟨304, "", none⟩,
          (fun n => if n = FAQ_NAME then .ok ⟨304, [], none⟩ else .error),
          (fun _ => none)⟩
      = .ok ⟨g6, false, false, [FAQ_NAME], [], []⟩ ∧
    do_update g6 (fun _ => none)
        ⟨.ok ⟨304, [], none⟩, .ok ⟨200, "Patch 9.0", some "me2"⟩,
          (fun n => if n = FAQ_NAME then .ok ⟨304, [], none⟩ else .error),
          (fun _ => none)⟩
      = .ok ⟨⟨some "me2", some "de", some "9.0"⟩, true, false,
          [FAQ_NAME], [], []⟩ :=
  ⟨(docdir_not_modified_run g6 (fun _ => none) _ ⟨304, [], none⟩
      ⟨304, "", none⟩ ⟨304, [], none⟩ rfl rfl rfl rfl rfl).1 (by decide),
    (docdir_not_modified_run g6 (fun _ => none) _ ⟨304, [], none⟩
      ⟨200, "Patch 9.0", some "me2"⟩ ⟨304, [], none⟩ rfl rfl rfl rfl rfl).2
      "9.0" rfl rfl rfl⟩

/-- **C7, counterexample** data: a new version is detected (commit message
`Patch 9.0.1` against a record with no stored version), and `help.txt` *is* in
the candidate set (its listing digest differs), but its conditional fetch
resolves not-modified (HTTP 304). -/
def g7 : GlobalInfo := ⟨some "me", some "de", none⟩

def rfi7 : String → Option RawFileInfo :=
  fun n => if n = HELP_NAME then some ⟨some "he", "sha-old"⟩
    else if n = FAQ_NAME then some ⟨some "fe", "x"⟩ else none

def env7cex : RunEnv :=
  ⟨.ok ⟨200, [⟨"help.txt", "file", "sha-new"⟩], some "de2"⟩,
    .ok ⟨200, "Patch 9.0.1", some "me2"⟩,
    (fun n => if n = FAQ_NAME then .ok ⟨304, [], none⟩
      else if n = HELP_NAME then .ok ⟨304, [], none⟩ else .error),
    (fun n => if n = TAGS_NAME then some ⟨[1], "UTF-8"⟩
      else if n = FAQ_NAME then some ⟨[2], "UTF-8"⟩ else none)⟩

/-- **C7, counterexample.** A new vim version is detected and `help.txt`'s own
conditional fetch resolves Unchanged (HTTP 304) — yet `help.txt` is *not*
re-rendered: it appears in neither `processedHTTP` nor `processedDB`
(`ProcessorHTTP.process_async` only processes HTTP 200 results, and the
`ProcessorDB` fallback of src/update.py lines 255-257 is skipped because
`help.txt` is already among the dispatched fetches). -/
theorem help_unchanged_not_reprocessed_counterexample :
    env7cex.fetch HELP_NAME = .ok ⟨304, [], none⟩ ∧
    do_update g7 rfi7 env7cex =
      .ok ⟨⟨some "me2", some "de2", some "9.0.1"⟩, true, true,
        [FAQ_NAME, HELP_NAME], [], []⟩ :=
  ⟨rfl, rfl⟩

/-- **C7, amended.** When a completed run detects a new vim version and
`help.txt` is not among the dispatched fetches, it is implicitly added as a
`ProcessorDB` and re-rendered from the stored `RawFileContent` — without any
network fetch.  A document whose dispatched conditional fetch resolves
Unchanged is not re-processed, even `help.txt` under a new version, and there
is no per-document force-reprocess flag in this pipeline. -/
theorem help_reprocessed_from_db (g : GlobalInfo)
    (rfi_map : String → Option RawFileInfo) (env : RunEnv) (out : RunOutcome)
    (h : do_update g rfi_map env = .ok out)
    (hnew : out.is_new_vim_version = true)
    (hnd : HELP_NAME ∉ out.dispatched) :
    out.processedDB = [HELP_NAME] ∧ ∃ c, env.rfc HELP_NAME = some c := by
  obtain ⟨g1, gch1, queued, g2, is_new, gch2, _, _, hcase⟩ :=
    do_update_ok_cases g rfi_map env out h
  rcases hcase with ⟨hisf, _, _, hout⟩ | hmain
  · rw [hout] at hnew
    rw [hisf] at hnew
    exact absurd hnew (by simp)
  · obtain ⟨hshape, _, hdb⟩ := mainPath_ok_shape _ _ _ _ _ _ hmain
    have hisnew : is_new = true := by
      rw [hshape] at hnew
      exact hnew
    have hdisp : out.dispatched = FAQ_NAME :: queued := by rw [hshape]
    rw [hdisp] at hnd
    rw [if_pos ⟨hisnew, hnd⟩] at hdb
    cases hrfc : env.rfc HELP_NAME with
    | none =>
      unfold processDB at hdb
      rw [hrfc] at hdb
      exact absurd hdb (by simp)
    | some c =>
      rw [processDB_one env HELP_NAME c hrfc] at hdb
      injection hdb with h4
      exact ⟨h4.symm, c, rfl⟩

def env7wit : RunEnv :=
  ⟨.ok ⟨304, [], none⟩,
    .ok ⟨200, "Patch 9.0.1", some "me2"⟩,
    (fun n => if n = FAQ_NAME then .ok ⟨304, [], none⟩ else .error),
    (fun n => if n = TAGS_NAME then some ⟨[1], "UTF-8"⟩
      else if n = FAQ_NAME then some ⟨[2], "UTF-8"⟩
      else if n = HELP_NAME then some ⟨[5], "UTF-8"⟩ else none)⟩

/-- Witness for `help_reprocessed_from_db`: a new version with `help.txt` not
dispatched; it is processed from the datastore. -/
theorem help_reprocessed_from_db_witness :
    (⟨⟨some "me2", some "de", some "9.0.1"⟩, true, true, [FAQ_NAME], [],
        [HELP_NAME]⟩ : RunOutcome).processedDB = [HELP_NAME] ∧
    ∃ c, env7wit.rfc HELP_NAME = some c :=
  help_reprocessed_from_db g7 rfi7 env7wit
    ⟨⟨some "me2", some "de", some "9.0.1"⟩, true, true, [FAQ_NAME], [], [HELP_NAME]⟩
    rfl rfl (by decide)

/-- **C8, counterexample** data: the directory-listing probe raises
`urlfetch.Error` while everything else is healthy. -/
def g8 : GlobalInfo := ⟨some "me", some "de", some "9.0"⟩

def env8cex : RunEnv :=
  ⟨.error,
    .ok ⟨200, "Patch 9.1.0", some "x"⟩,
    (fun _ => .ok ⟨200, [1], none⟩),
    (fun _ => some ⟨[1], "UTF-8"⟩)⟩

/-- **C8, counterexample.** An unreachable directory-listing probe (a raised
`urlfetch.Error`) is *fatal*: the exception surfaces at
`docdir_future.get_result()` (src/update.py line 168), the whole run aborts,
and no other work proceeds — contradicting "non-fatal to the run ... only that
probe's associated work is skipped while the rest of the run proceeds". -/
theorem probe_unreachable_fatal_counterexample :
    env8cex.docdir = .error ∧
    do_update g8 (fun _ => none) env8cex = .error .urlfetchError :=
  ⟨rfl, rfl⟩

/-- **C8, amended.** An *error-status* (non-OK, non-304) result from either
probe is non-fatal — the stored validator for that probe is retained unchanged
and only that probe's associated work is skipped while the rest of the run
proceeds — whereas an *unreachable* probe (a raised `urlfetch.Error`) aborts
the whole run, for either probe.  In order: (1) a listing-probe error status
leaves the global entity untouched and queues nothing; (2) a version-probe
error status leaves the global entity and `g_changed` untouched; (3) a run
with a listing-probe error status still carries out the version-driven work —
a newly detected version re-renders `help.txt` from the datastore; (4) an
unreachable listing probe aborts the run; (5) an unreachable version probe
aborts the run whenever the listing step itself completed; (6) a run with a
version-probe error status still carries out the listing-driven work — a
fresh listing entry is fetched and processed. -/
theorem probe_error_status_nonfatal :
    (∀ (g : GlobalInfo) (rfi_map : String → Option RawFileInfo)
        (d : DocDirResult), d.status_code ≠ 304 → d.status_code ≠ 200 →
      processDocdir g rfi_map (.ok d) = .ok (g, false, [])) ∧
    (∀ (g : GlobalInfo) (gch : Bool) (m : MasterResult),
      m.status_code ≠ 200 →
      processMaster g gch (.ok m) = .ok (g, false, gch)) ∧
    (∀ (g : GlobalInfo) (rfi_map : String → Option RawFileInfo) (env : RunEnv)
        (d : DocDirResult) (m : MasterResult) (v : String)
        (r : UrlfetchResult) (cT cF cH : RawFileContent),
      env.docdir = .ok d → d.status_code ≠ 304 → d.status_code ≠ 200 →
      env.master = .ok m → m.status_code = 200 →
      commitMsgMatch m.message = some v → g.vim_version ≠ some v →
      env.fetch FAQ_NAME = .ok r → r.status_code = 304 →
      env.rfc TAGS_NAME = some cT → env.rfc FAQ_NAME = some cF →
      env.rfc HELP_NAME = some cH →
      do_update g rfi_map env =
        .ok ⟨{ g with vim_version := some v, master_etag := m.etag },
          true, true, [FAQ_NAME], [], [HELP_NAME]⟩) ∧
    (∀ (g : GlobalInfo) (rfi_map : String → Option RawFileInfo) (env : RunEnv),
      env.docdir = .error →
      do_update g rfi_map env = .error .urlfetchError) ∧
    (∀ (g : GlobalInfo) (rfi_map : String → Option RawFileInfo) (env : RunEnv)
        (g1 : GlobalInfo) (gch1 : Bool) (queued : List String),
      processDocdir g rfi_map env.docdir = .ok (g1, gch1, queued) →
      env.master = .error →
      do_update g rfi_map env = .error .urlfetchError) ∧
    (∀ (g : GlobalInfo) (rfi_map : String → Option RawFileInfo) (env : RunEnv)
        (d : DocDirResult) (item : DocDirItem) (m : MasterResult)
        (r rr : UrlfetchResult) (cT cF : RawFileContent),
      env.docdir = .ok d → d.status_code = 200 → d.items = [item] →
      item.type = "file" → docItemMatch item.name = true →
      item.name ≠ FAQ_NAME → item.name ≠ TAGS_NAME →
      rfi_map item.name = none →
      env.master = .ok m → m.status_code ≠ 200 →
      env.fetch FAQ_NAME = .ok r → r.status_code = 304 →
      env.fetch item.name = .ok rr → rr.status_code = 200 →
      env.rfc TAGS_NAME = some cT → env.rfc FAQ_NAME = some cF →
      do_update g rfi_map env =
        .ok ⟨{ g with docdir_etag := d.etag }, true, false,
          [FAQ_NAME, item.name], [item.name], []⟩) := by
  refine ⟨?_, ?_, ?_, ?_, ?_, ?_⟩
  · intro g rfi_map d h1 h2
    exact processDocdir_not_fresh g rfi_map d h1 h2
  · intro g gch m h1
    exact processMaster_not_fresh g gch m h1
  · intro g rfi_map env d m v r cT cF cH hd h304 h200d hm h200 hv hne hf hr
      hcT hcF hcH
    have hdoc : processDocdir g rfi_map env.docdir = .ok (g, false, []) := by
      rw [hd]
      exact processDocdir_not_fresh g rfi_map d h304 h200d
    have hmast : processMaster g false env.master =
        .ok ({ g with vim_version := some v, master_etag := m.etag },
          true, true) := by
      rw [hm]
      exact processMaster_fresh_new g false m v h200 hv hne
    rw [do_update_eq g rfi_map env g false [] _ true true hdoc hmast]
    rw [if_neg (by simp)]
    refine mainPath_eq _ _ _ _ _ (some cT.data) (some cF.data)
      [HELP_NAME] [] ?_ ?_ ?_ ?_
    · exact get_content_not_dispatched _ env TAGS_NAME cT (by decide) hcT
    · exact get_content_304 _ env FAQ_NAME r cF (List.mem_singleton.mpr rfl)
        hf hr hcF
    · rw [if_pos ⟨rfl, by decide⟩]
      exact processDB_one env HELP_NAME cH hcH
    · rw [runLoop_cons_skip env FAQ_NAME [] r hf (by omega)]
      exact runLoop_nil env
  · intro g rfi_map env h2
    unfold do_update
    rw [h2]
    rfl
  · intro g rfi_map env g1 gch1 queued hdoc hm
    unfold do_update
    rw [hdoc]
    dsimp only
    rw [hm]
    rfl
  · intro g rfi_map env d item m r rr cT cF hd h200d hitems htype hmatch hnf
      hnt hrfi hm hm200 hf hr hfi hrr200 hcT hcF
    have hq : queueNames rfi_map d.items = .ok [item.name] := by
      rw [hitems]
      exact queueNames_single_new rfi_map item htype hmatch hnf hrfi
    have hdoc : processDocdir g rfi_map env.docdir =
        .ok ({ g with docdir_etag := d.etag }, true, [item.name]) := by
      rw [hd]
      exact processDocdir_200 g rfi_map d [item.name] h200d hq
    have hmast : processMaster { g with docdir_etag := d.etag } true env.master
        = .ok ({ g with docdir_etag := d.etag }, false, true) := by
      rw [hm]
      exact processMaster_not_fresh _ true m hm200
    rw [do_update_eq g rfi_map env _ true [item.name] _ false true hdoc hmast]
    rw [if_neg (by simp)]
    refine mainPath_eq _ _ _ _ _ (some cT.data) (some cF.data)
      [] [item.name] ?_ ?_ ?_ ?_
    · refine get_content_not_dispatched _ env TAGS_NAME cT ?_ hcT
      intro hmem
      rcases List.mem_cons.mp hmem with h1 | h1
      · exact absurd h1 (by decide)
      · exact hnt (List.mem_singleton.mp h1).symm
    · exact get_content_304 _ env FAQ_NAME r cF
        (List.mem_cons_self FAQ_NAME [item.name]) hf hr hcF
    · rw [if_neg (by simp)]
      exact processDB_nil env
    · rw [runLoop_cons_skip env FAQ_NAME [item.name] r hf (by omega)]
      exact runLoop_cons_200 env item.name [] rr [] hfi hrr200 (runLoop_nil env)

/-- Witness for `probe_error_status_nonfatal`, applying its run-level
conjuncts at concrete inputs: a listing probe with status 500 while a new
version re-renders `help.txt` from the datastore, and an unreachable version
probe aborting a run whose listing step completed. -/
theorem probe_error_status_nonfatal_witness :
    do_update g8 (fun _ => none)
        ⟨.ok ⟨500, [], none⟩, .ok ⟨200, "Patch 9.1.0", some "me2"⟩,
          (fun n => if n = FAQ_NAME then .ok ⟨304, [], none⟩ else .error),
          (fun _ => some ⟨[1], "UTF-8"⟩)⟩
      = .ok ⟨⟨some "me2", some "de", some "9.1.0"⟩, true, true,
          [FAQ_NAME], [], [HELP_NAME]⟩ ∧
    do_update g8 (fun _ => none)
        ⟨.ok ⟨304, [], none⟩, .error, (fun _ => .error), (fun _ => none)⟩
      = .error .urlfetchError :=
  ⟨probe_error_status_nonfatal.2.2.1 g8 (fun _ => none) _ ⟨500, [], none⟩
      ⟨200, "Patch 9.1.0", some "me2"⟩ "9.1.0" ⟨304, [], none⟩
      ⟨[1], "UTF-8"⟩ ⟨[1], "UTF-8"⟩ ⟨[1], "UTF-8"⟩
      rfl (by decide) (by decide) rfl rfl rfl (by decide) rfl rfl rfl rfl rfl,
    probe_error_status_nonfatal.2.2.2.2.1 g8 (fun _ => none)
      ⟨.ok ⟨304, [], none⟩, .error, (fun _ => .error), (fun _ => none)⟩
      g8 false [] rfl rfl⟩

/-- **C9.** The force-mode wipe (src/update.py lines 93-99) empties exactly the
`RawFileInfo` table, the `RawFileContent` table, and the global checkpoint
record, and touches nothing else: the published rendered output — the
`ProcessedFileHead` and `ProcessedFilePart` tables — is left byte-for-byte
unchanged by the wipe. -/
theorem force_wipe_frame (s : Store) :
    (forceWipe s).rfi = [] ∧ (forceWipe s).rfc = [] ∧
    (forceWipe s).global = none ∧
    (forceWipe s).heads = s.heads ∧ (forceWipe s).parts = s.parts := by
  have hnil : ∀ (α : Type) (tbl : List (String × α)), wipe_db tbl = [] := by
    intro α tbl
    rw [wipe_db, List.filter_eq_nil_iff]
    intro kv hkv
    simp only [Bool.not_eq_false, decide_eq_true_eq, Decidable.not_not]
    exact List.mem_map_of_mem Prod.fst hkv
  exact ⟨hnil _ s.rfi, hnil _ s.rfc, rfl, rfl, rfl⟩

end Vimhelp
